import Mathlib

/-!
Verification development for the moviweb_app data-management layer.

The definitions below are a shallow embedding of
`datamanager/sqlite_data_manager.py`: users, movies and the many-to-many
user-movie association are modelled as explicit lists, the SQLAlchemy
session as a pair of a committed and a pending database, and
`session.commit()` as a step that either publishes the pending state or
fails (modelling a storage-backend error) and rolls back to the committed
state.  Backend failures are injected through an oracle `ok : Nat → Bool`
indexed by the number of commit attempts made so far in the operation.

Notes on the embedding:
* `data_models.py` is inconsistent with the data manager (its `Movie` has a
  `director_id` foreign key, a string `release_year` and no `poster_url`,
  while `sqlite_data_manager.py` constructs `Movie(..., director=...,
  poster_url=...)`); the record used by the behavioural model below follows
  the fields the data manager actually reads and writes.  The schema
  declared by `data_models.py` is encoded separately (`movieTableColumns`).
* Python values stored in the dynamically typed `release_year` and
  `imdb_rating` fields are modelled by `PyVal` (the add path stores the
  strings fetched from OMDb, the update path stores parsed numbers).
* Python `int(...)` and `float(...)` on strings are modelled by `pyInt` and
  `pyFloat` (sign, digits, one optional decimal point; underscores and
  exponents are not modelled, no claim depends on them).
* ORM attribute reads on a fetched row are modelled as reads of the record
  snapshot taken by the query that fetched it.
-/

namespace MoviWeb

/-- A dynamically typed Python value as stored in a movie field. -/
inductive PyVal where
  | vstr (s : String) : PyVal
  | vint (n : Int) : PyVal
  | vfloat (q : Rat) : PyVal
deriving DecidableEq

/-- Strip leading and trailing whitespace, as Python `int`/`float` do. -/
def stripWs (cs : List Char) : List Char :=
  ((cs.dropWhile Char.isWhitespace).reverse.dropWhile Char.isWhitespace).reverse

/-- Decimal digits to a natural number. -/
def digitsToNat (cs : List Char) : Nat :=
  cs.foldl (fun a c => a * 10 + (c.toNat - 48)) 0

/-- Model of Python `int(s)` on a string: `none` models `ValueError`. -/
def pyInt (s : String) : Option Int :=
  let cs := stripWs s.toList
  let sgn : Bool × List Char :=
    match cs with
    | '-' :: rest => (true, rest)
    | '+' :: rest => (false, rest)
    | _ => (false, cs)
  let ds := sgn.2
  if ds.isEmpty then none
  else if ds.all Char.isDigit then
    some (if sgn.1 then -(digitsToNat ds : Int) else (digitsToNat ds : Int))
  else none

/-- Split a character list at a single decimal point; `none` if more than
one point occurs. -/
def splitDot : List Char → Option (List Char × List Char)
  | [] => some ([], [])
  | '.' :: rest => if rest.contains '.' then none else some ([], rest)
  | c :: rest =>
    match splitDot rest with
    | some (ip, fp) => some (c :: ip, fp)
    | none => none

/-- Model of Python `float(s)` on a string: `none` models `ValueError`. -/
def pyFloat (s : String) : Option Rat :=
  let cs := stripWs s.toList
  let sgn : Bool × List Char :=
    match cs with
    | '-' :: rest => (true, rest)
    | '+' :: rest => (false, rest)
    | _ => (false, cs)
  match splitDot sgn.2 with
  | none => none
  | some (ip, fp) =>
    if ip.isEmpty && fp.isEmpty then none
    else if ip.all Char.isDigit && fp.all Char.isDigit then
      let q : Rat := ((digitsToNat (ip ++ fp) : Int) : Rat) / ((10 : Rat) ^ fp.length)
      some (if sgn.1 then -q else q)
    else none

/-- A row of the `user` table. -/
structure User where
  id : Nat
  name : String
deriving DecidableEq

/-- A movie record with the fields the data manager reads and writes
(`title`, `director`, `release_year`, `imdb_rating`, `poster_url`). -/
structure Movie where
  id : Nat
  title : String
  director : String
  release_year : PyVal
  imdb_rating : PyVal
  poster_url : String
deriving DecidableEq

/-- The persistent store: user rows, movie rows, the user-movie association
table, and the autoincrement counters. -/
structure DB where
  users : List User
  movies : List Movie
  assoc : List (Nat × Nat)
  nextUserId : Nat
  nextMovieId : Nat
deriving DecidableEq

/-- A SQLAlchemy session over the store: the durable committed state and
the pending state holding uncommitted writes.  `clock` counts commit
attempts, indexing the failure oracle. -/
structure Sess where
  committed : DB
  pending : DB
  clock : Nat
deriving DecidableEq

/-- A fresh session at the start of an operation. -/
def Sess.start (db : DB) : Sess := ⟨db, db, 0⟩

/-- `session.commit()`: on success the pending state becomes durable; on a
backend failure (oracle says `false`) the transaction is rolled back. -/
def commit (ok : Nat → Bool) (s : Sess) : Bool × Sess :=
  if ok s.clock then (true, ⟨s.pending, s.pending, s.clock + 1⟩)
  else (false, ⟨s.committed, s.committed, s.clock + 1⟩)

/-- `session.rollback()`: discard uncommitted writes. -/
def rollback (s : Sess) : Sess := ⟨s.committed, s.committed, s.clock⟩

/-- `session.query(User).get(user_id)` / `.filter(User.id == id).first()`. -/
def findUser (db : DB) (uid : Nat) : Option User :=
  db.users.find? (fun u => u.id == uid)

/-- `session.query(Movie).get(movie_id)`. -/
def findMovie (db : DB) (mid : Nat) : Option Movie :=
  db.movies.find? (fun m => m.id == mid)

/-- `session.query(Movie).filter(Movie.title == title).first()`. -/
def findMovieByTitle (db : DB) (t : String) : Option Movie :=
  db.movies.find? (fun m => m.title == t)

/-- `movie.users`: ids of the users associated with movie `mid`. -/
def movieUsers (db : DB) (mid : Nat) : List Nat :=
  (db.assoc.filter (fun p => decide (p.2 = mid))).map Prod.fst

/-- `user.movies`: the movies associated with user `uid`. -/
def userMovies (db : DB) (uid : Nat) : List Movie :=
  db.movies.filter (fun m => decide ((uid, m.id) ∈ db.assoc))

/-- `SQLiteDataManager.get_all_movies`. -/
def get_all_movies (db : DB) : List Movie := db.movies

/-- `SQLiteDataManager.get_user_movies`: raises `ValueError` when the user
id does not resolve. -/
def get_user_movies (db : DB) (uid : Nat) : Except String (List Movie) :=
  match findUser db uid with
  | none => Except.error "ValueError"
  | some _ => Except.ok (userMovies db uid)

/-- `SQLiteDataManager.add_user`.  A non-string argument raises `TypeError`
before the `try` block (modelled as `Except.error`); otherwise the new user
row is inserted and committed.  All caught exception paths return Python
`None`, modelled as `Option.none` in the first component. -/
def add_user (ok : Nat → Bool) (s : Sess) (name : PyVal) :
    Except String (Option String) × Sess :=
  match name with
  | PyVal.vstr n =>
    let p := s.pending
    let newU : User := { id := p.nextUserId, name := n }
    let s1 : Sess :=
      { s with pending := { p with users := p.users ++ [newU],
                                   nextUserId := p.nextUserId + 1 } }
    match commit ok s1 with
    | (true, s2) => (Except.ok (some (n ++ " added as a new user.")), s2)
    | (false, s2) => (Except.ok none, s2)
  | _ => (Except.error "TypeError", s)

/-- Result of `omdb_api.request_movie_data`: a five-field tuple on success,
an error string otherwise (per its annotated return type
`tuple[str, str, str, str, str] | str`). -/
inductive OmdbRes where
  | tup5 (title director year rating poster : String) : OmdbRes
  | err (msg : String) : OmdbRes
deriving DecidableEq

/-- `SQLiteDataManager.add_movie_to_user`, parametrised by the metadata
lookup client.  The `isinstance(res, tuple) and len(res) == 5` shape check
is exactly the `tup5` case of `OmdbRes`. -/
def add_movie_to_user (lookup : String → OmdbRes) (ok : Nat → Bool)
    (s : Sess) (uid : Nat) (title : String) : Option String × Sess :=
  let p := s.pending
  match findUser p uid with
  | none => (none, rollback s)
  | some _user =>
    match findMovieByTitle p title with
    | some known =>
      if (uid, known.id) ∈ p.assoc then
        (some (title ++ " already exists in your list of movies."), s)
      else
        let s1 : Sess :=
          { s with pending := { p with assoc := p.assoc ++ [(uid, known.id)] } }
        match commit ok s1 with
        | (true, s2) => (some (title ++ " added to your list of movies."), s2)
        | (false, s2) => (none, s2)
    | none =>
      match lookup title with
      | OmdbRes.err _ => (some "Data is invalid", s)
      | OmdbRes.tup5 ft fd fy fr fp =>
        let newM : Movie :=
          { id := p.nextMovieId, title := ft, director := fd,
            release_year := PyVal.vstr fy, imdb_rating := PyVal.vstr fr,
            poster_url := fp }
        let s1 : Sess :=
          { s with pending := { p with movies := p.movies ++ [newM],
                                       assoc := p.assoc ++ [(uid, newM.id)],
                                       nextMovieId := p.nextMovieId + 1 } }
        match commit ok s1 with
        | (true, s2) => (some (title ++ " added to your list of movies."), s2)
        | (false, s2) => (none, s2)

/-- `SQLiteDataManager.delete_movie`.  Removes the association if present
and commits; if the movie then has no associated users, deletes the row and
commits again.  Exception paths (ids unresolved, backend failure) return
Python `None`.  The success message uses the movie title in place of the
Python `repr` of the row. -/
def delete_movie (ok : Nat → Bool) (s : Sess) (mid uid : Nat) :
    Option String × Sess :=
  let p := s.pending
  match findMovie p mid with
  | none => (none, rollback s)
  | some movie =>
    match findUser p uid with
    | none => (none, rollback s)
    | some _user =>
      let step1 : Bool × Sess :=
        if (uid, mid) ∈ p.assoc then
          commit ok { s with pending :=
            { p with assoc := p.assoc.filter (fun q => decide (q ≠ (uid, mid))) } }
        else (true, s)
      match step1 with
      | (false, s1) => (none, s1)
      | (true, s1) =>
        let p1 := s1.pending
        if movieUsers p1 mid = [] then
          match commit ok { s1 with pending :=
            { p1 with movies := p1.movies.filter (fun m => decide (m.id ≠ mid)) } } with
          | (false, s2) => (none, s2)
          | (true, s2) =>
            (some (movie.title ++ " has been removed from your list."), s2)
        else (some (movie.title ++ " has been removed from your list."), s1)

/-- `SQLiteDataManager.remove_movie_from_user`.  Same structure as
`delete_movie` (association removal, then orphan deletion), with the
`len(movie.users) == 0` emptiness test and its own message. -/
def remove_movie_from_user (ok : Nat → Bool) (s : Sess) (mid uid : Nat) :
    Option String × Sess :=
  let p := s.pending
  match findMovie p mid with
  | none => (none, rollback s)
  | some movie =>
    match findUser p uid with
    | none => (none, rollback s)
    | some _user =>
      let step1 : Bool × Sess :=
        if (uid, mid) ∈ p.assoc then
          commit ok { s with pending :=
            { p with assoc := p.assoc.filter (fun q => decide (q ≠ (uid, mid))) } }
        else (true, s)
      match step1 with
      | (false, s1) => (none, s1)
      | (true, s1) =>
        let p1 := s1.pending
        if (movieUsers p1 mid).length = 0 then
          match commit ok { s1 with pending :=
            { p1 with movies := p1.movies.filter (fun m => decide (m.id ≠ mid)) } } with
          | (false, s2) => (none, s2)
          | (true, s2) =>
            (some ("Successfully removed " ++ movie.title ++ " from your list."), s2)
        else (some ("Successfully removed " ++ movie.title ++ " from your list."), s1)

/-- `SQLiteDataManager.update_movie`.  Fetches the movie and user, parses
the numeric fields falling back to the original values on `ValueError`,
then calls `delete_movie` (ignoring its result), inserts a brand-new movie
row carrying the new values and the original `poster_url`, and commits.
The `isinstance` checks on `title` and `director` always pass here because
the route layer supplies form strings. -/
def update_movie (ok : Nat → Bool) (s : Sess) (uid mid : Nat)
    (title director release_year imdb_rating : String) :
    Option String × Sess :=
  let p := s.pending
  match findMovie p mid, findUser p uid with
  | none, _ => (none, rollback s)
  | some _, none => (none, rollback s)
  | some movie, some _user =>
    let newYear : PyVal :=
      match pyInt release_year with
      | some n => PyVal.vint n
      | none => movie.release_year
    let newRating : PyVal :=
      match pyFloat imdb_rating with
      | some q => PyVal.vfloat q
      | none => movie.imdb_rating
    let s1 := (delete_movie ok s mid uid).2
    let p1 := s1.pending
    let newM : Movie :=
      { id := p1.nextMovieId, title := title, director := director,
        release_year := newYear, imdb_rating := newRating,
        poster_url := movie.poster_url }
    let s2 : Sess :=
      { s1 with pending := { p1 with movies := p1.movies ++ [newM],
                                     assoc := p1.assoc ++ [(uid, newM.id)],
                                     nextMovieId := p1.nextMovieId + 1 } }
    match commit ok s2 with
    | (true, s3) => (some (movie.title ++ " updated!"), s3)
    | (false, s3) => (none, s3)

/-! ### Schema declared by `data_models.py`

Encoded separately from the behavioural model: the `movie` table as
declared by the ORM mapping, the constructor keyword arguments passed by
`add_movie_to_user`, and the attribute names the mapped class accepts. -/

/-- Column type tags for the declared schema. -/
inductive ColTy where
  | colInt : ColTy
  | colStr : ColTy
  | colFloat : ColTy
deriving DecidableEq

/-- The columns of the `movie` table as declared in `data_models.py`
(`id`, `title`, `release_year: Mapped[str]`, `imdb_rating: Mapped[float]`,
`director_id: ForeignKey("director.id")`). -/
def movieTableColumns : List (String × ColTy) :=
  [("id", ColTy.colInt), ("title", ColTy.colStr),
   ("release_year", ColTy.colStr), ("imdb_rating", ColTy.colFloat),
   ("director_id", ColTy.colInt)]

/-- The Movie field set asserted by the specification: inline director
string, integer release year, optional poster URL. -/
def specMovieFields : List (String × ColTy) :=
  [("id", ColTy.colInt), ("title", ColTy.colStr), ("director", ColTy.colStr),
   ("release_year", ColTy.colInt), ("imdb_rating", ColTy.colFloat),
   ("poster_url", ColTy.colStr)]

/-- Keyword arguments passed to `Movie(...)` by `add_movie_to_user`
(`sqlite_data_manager.py` lines 159-165). -/
def addMovieCtorKwargs : List String :=
  ["title", "director", "release_year", "imdb_rating", "poster_url"]

/-- Attribute names the mapped `Movie` class accepts as constructor keyword
arguments: its mapped columns and relationships (`data_models.py` lines
22-39).  SQLAlchemy raises `TypeError` for any other keyword. -/
def movieMappedAttrs : List String :=
  ["id", "title", "release_year", "imdb_rating", "director_id",
   "director", "users"]

/-! ### Invariants and reachable states -/

/-- Oracle for runs in which the storage backend never fails. -/
def okAll : Nat → Bool := fun _ => true

/-- The empty store (autoincrement ids start at 1). -/
def emptyDB : DB := ⟨[], [], [], 1, 1⟩

/-- Committed state after `add_user` in a failure-free run. -/
def runAddUser (db : DB) (n : PyVal) : DB :=
  (add_user okAll (Sess.start db) n).2.committed

/-- Committed state after `add_movie_to_user` in a failure-free run. -/
def runAddMovie (lk : String → OmdbRes) (db : DB) (uid : Nat) (t : String) : DB :=
  (add_movie_to_user lk okAll (Sess.start db) uid t).2.committed

/-- Committed state after `update_movie` in a failure-free run. -/
def runUpdate (db : DB) (uid mid : Nat) (t d y r : String) : DB :=
  (update_movie okAll (Sess.start db) uid mid t d y r).2.committed

/-- Committed state after `remove_movie_from_user` in a failure-free run. -/
def runRemove (db : DB) (mid uid : Nat) : DB :=
  (remove_movie_from_user okAll (Sess.start db) mid uid).2.committed

/-- Committed state after `delete_movie` in a failure-free run. -/
def runDelete (db : DB) (mid uid : Nat) : DB :=
  (delete_movie okAll (Sess.start db) mid uid).2.committed

/-- States reachable from the empty store by data manager operations with
arbitrary arguments and lookup clients, in failure-free runs. -/
inductive Reach : DB → Prop where
  | init : Reach emptyDB
  | addUser {db : DB} (n : PyVal) : Reach db → Reach (runAddUser db n)
  | addMovie {db : DB} (lk : String → OmdbRes) (uid : Nat) (t : String) :
      Reach db → Reach (runAddMovie lk db uid t)
  | update {db : DB} (uid mid : Nat) (t d y r : String) :
      Reach db → Reach (runUpdate db uid mid t d y r)
  | remove {db : DB} (mid uid : Nat) : Reach db → Reach (runRemove db mid uid)
  | del {db : DB} (mid uid : Nat) : Reach db → Reach (runDelete db mid uid)

/-- The autoincrement counters are strictly above every id in use. -/
def idsFresh (db : DB) : Prop :=
  (∀ m ∈ db.movies, m.id < db.nextMovieId) ∧
  (∀ u ∈ db.users, u.id < db.nextUserId) ∧
  (∀ p ∈ db.assoc, p.1 < db.nextUserId ∧ p.2 < db.nextMovieId)

/-- Primary keys are unique. -/
def nodupIds (db : DB) : Prop :=
  (db.movies.map Movie.id).Nodup ∧ (db.users.map User.id).Nodup

/-- The orphan invariant: every movie row has at least one association. -/
def orphanFree (db : DB) : Prop :=
  ∀ m ∈ db.movies, ∃ p ∈ db.assoc, p.2 = m.id

/-- Inductive invariant of the store. -/
def Inv (db : DB) : Prop := idsFresh db ∧ nodupIds db ∧ orphanFree db

instance (db : DB) : Decidable (idsFresh db) := by unfold idsFresh; infer_instance

instance (db : DB) : Decidable (nodupIds db) := by unfold nodupIds; infer_instance

instance (db : DB) : Decidable (orphanFree db) := by unfold orphanFree; infer_instance

instance (db : DB) : Decidable (Inv db) := by unfold Inv; infer_instance

/-! ### Post-state characterisations (used by the lemmas below) -/

/-- Post-state shared by `remove_movie_from_user` and `delete_movie` in a
failure-free run with resolving ids: the association is removed (a
no-op when absent) and the movie row is deleted when orphaned. -/
def afterRemove (db : DB) (mid uid : Nat) : DB :=
  let db1 : DB :=
    { db with assoc := db.assoc.filter (fun q => decide (q ≠ (uid, mid))) }
  if movieUsers db1 mid = [] then
    { db1 with movies := db1.movies.filter (fun m => decide (m.id ≠ mid)) }
  else db1

/-- Number of commits performed by `delete_movie` (and
`remove_movie_from_user`) in a failure-free run with resolving ids. -/
def deleteClock (db : DB) (mid uid : Nat) : Nat :=
  (if (uid, mid) ∈ db.assoc then 1 else 0) +
  (if movieUsers
      { db with assoc := db.assoc.filter (fun q => decide (q ≠ (uid, mid))) }
      mid = [] then 1 else 0)

/-- The movie row inserted by `update_movie`: new title and director, the
parsed numeric fields with fallback to the original movie `M`, and `M`'s
poster URL. -/
def updMovie (nid : Nat) (t d y r : String) (M : Movie) : Movie :=
  { id := nid, title := t, director := d,
    release_year :=
      match pyInt y with
      | some n => PyVal.vint n
      | none => M.release_year,
    imdb_rating :=
      match pyFloat r with
      | some q => PyVal.vfloat q
      | none => M.imdb_rating,
    poster_url := M.poster_url }

/-- Committed post-state of `update_movie` in a failure-free run with
resolving ids: the `delete_movie` post-state extended with the fresh row. -/
def updateResult (db : DB) (uid mid : Nat) (t d y r : String) (M : Movie) : DB :=
  let db1 := afterRemove db mid uid
  { db1 with movies := db1.movies ++ [updMovie db1.nextMovieId t d y r M],
             assoc := db1.assoc ++ [(uid, db1.nextMovieId)],
             nextMovieId := db1.nextMovieId + 1 }

/-! ### Lemmas -/

theorem commit_okAll (s : Sess) :
    commit okAll s = (true, ⟨s.pending, s.pending, s.clock + 1⟩) := by
  simp [commit, okAll]

theorem rollback_start (db : DB) : rollback (Sess.start db) = Sess.start db := rfl

theorem filter_ne_of_not_mem {α : Type} [DecidableEq α] (l : List α) (x : α)
    (h : x ∉ l) : l.filter (fun q => decide (q ≠ x)) = l := by
  induction l with
  | nil => rfl
  | cons a t ih =>
    simp only [List.mem_cons, not_or] at h
    simp only [List.filter_cons, decide_eq_true_eq]
    rw [if_pos (fun hax => h.1 hax.symm), ih h.2]

theorem filter_ne_of_not_mem2 {α : Type} [DecidableEq α] (l : List α) (x : α)
    (h : x ∉ l) : l.filter (fun q => !decide (q = x)) = l := by
  have := filter_ne_of_not_mem l x h
  simpa [ne_eq, decide_not] using this

theorem movieUsers_nil_iff (db : DB) (mid : Nat) :
    movieUsers db mid = [] ↔ ∀ p ∈ db.assoc, p.2 ≠ mid := by
  unfold movieUsers
  simp [List.filter_eq_nil_iff]

theorem findMovie_eq {db : DB} {mid : Nat} {M : Movie}
    (h : findMovie db mid = some M) : M ∈ db.movies ∧ M.id = mid := by
  unfold findMovie at h
  refine ⟨List.mem_of_find?_eq_some h, ?_⟩
  have := List.find?_some h
  simpa using this

theorem findUser_eq {db : DB} {uid : Nat} {U : User}
    (h : findUser db uid = some U) : U ∈ db.users ∧ U.id = uid := by
  unfold findUser at h
  refine ⟨List.mem_of_find?_eq_some h, ?_⟩
  have := List.find?_some h
  simpa using this

theorem start_pending (db : DB) : (Sess.start db).pending = db := rfl

theorem start_committed (db : DB) : (Sess.start db).committed = db := rfl

theorem delete_movie_okAll (db : DB) (mid uid : Nat) (M : Movie) (U : User)
    (hm : findMovie db mid = some M) (hu : findUser db uid = some U) :
    delete_movie okAll (Sess.start db) mid uid =
      (some (M.title ++ " has been removed from your list."),
       ⟨afterRemove db mid uid, afterRemove db mid uid, deleteClock db mid uid⟩) := by
  unfold delete_movie afterRemove deleteClock
  simp only [start_pending, hm, hu, ne_eq, decide_not]
  by_cases hmem : (uid, mid) ∈ db.assoc
  · simp only [hmem, if_true, commit_okAll]
    by_cases hemp :
        movieUsers
          { db with assoc := db.assoc.filter (fun q => !decide (q = (uid, mid))) }
          mid = []
    · simp [hemp, commit_okAll, Sess.start]
    · simp [hemp, Sess.start]
  · rw [filter_ne_of_not_mem2 db.assoc (uid, mid) hmem]
    simp only [hmem, if_false]
    by_cases hemp : movieUsers db mid = []
    · simp [hemp, commit_okAll, Sess.start]
    · simp [hemp, Sess.start]

theorem remove_movie_okAll (db : DB) (mid uid : Nat) (M : Movie) (U : User)
    (hm : findMovie db mid = some M) (hu : findUser db uid = some U) :
    remove_movie_from_user okAll (Sess.start db) mid uid =
      (some ("Successfully removed " ++ M.title ++ " from your list."),
       ⟨afterRemove db mid uid, afterRemove db mid uid, deleteClock db mid uid⟩) := by
  unfold remove_movie_from_user afterRemove deleteClock
  simp only [start_pending, hm, hu, ne_eq, decide_not, List.length_eq_zero]
  by_cases hmem : (uid, mid) ∈ db.assoc
  · simp only [hmem, if_true, commit_okAll]
    by_cases hemp :
        movieUsers
          { db with assoc := db.assoc.filter (fun q => !decide (q = (uid, mid))) }
          mid = []
    · simp [hemp, commit_okAll, Sess.start]
    · simp [hemp, Sess.start]
  · rw [filter_ne_of_not_mem2 db.assoc (uid, mid) hmem]
    simp only [hmem, if_false]
    by_cases hemp : movieUsers db mid = []
    · simp [hemp, commit_okAll, Sess.start]
    · simp [hemp, Sess.start]

theorem update_movie_okAll (db : DB) (uid mid : Nat) (t d y r : String)
    (M : Movie) (U : User)
    (hm : findMovie db mid = some M) (hu : findUser db uid = some U) :
    update_movie okAll (Sess.start db) uid mid t d y r =
      (some (M.title ++ " updated!"),
       ⟨updateResult db uid mid t d y r M, updateResult db uid mid t d y r M,
        deleteClock db mid uid + 1⟩) := by
  unfold update_movie updateResult updMovie
  simp only [start_pending, hm, hu]
  rw [delete_movie_okAll db mid uid M U hm hu]
  simp [commit_okAll]

theorem runDelete_eq (db : DB) (mid uid : Nat) :
    runDelete db mid uid =
      match findMovie db mid, findUser db uid with
      | some _, some _ => afterRemove db mid uid
      | _, _ => db := by
  unfold runDelete
  cases hm : findMovie db mid with
  | none => simp [delete_movie, start_pending, hm, rollback, start_committed]
  | some M =>
    cases hu : findUser db uid with
    | none => simp [delete_movie, start_pending, hm, hu, rollback, start_committed]
    | some U => rw [delete_movie_okAll db mid uid M U hm hu]

theorem runRemove_eq (db : DB) (mid uid : Nat) :
    runRemove db mid uid =
      match findMovie db mid, findUser db uid with
      | some _, some _ => afterRemove db mid uid
      | _, _ => db := by
  unfold runRemove
  cases hm : findMovie db mid with
  | none =>
    simp [remove_movie_from_user, start_pending, hm, rollback, start_committed]
  | some M =>
    cases hu : findUser db uid with
    | none =>
      simp [remove_movie_from_user, start_pending, hm, hu, rollback,
        start_committed]
    | some U => rw [remove_movie_okAll db mid uid M U hm hu]

theorem runUpdate_eq (db : DB) (uid mid : Nat) (t d y r : String) :
    runUpdate db uid mid t d y r =
      match findMovie db mid, findUser db uid with
      | some M, some _ => updateResult db uid mid t d y r M
      | _, _ => db := by
  unfold runUpdate
  cases hm : findMovie db mid with
  | none => simp [update_movie, start_pending, hm, rollback, start_committed]
  | some M =>
    cases hu : findUser db uid with
    | none => simp [update_movie, start_pending, hm, hu, rollback, start_committed]
    | some U => rw [update_movie_okAll db uid mid t d y r M U hm hu]

theorem runAddUser_eq (db : DB) (n : PyVal) :
    runAddUser db n =
      match n with
      | PyVal.vstr s =>
        { db with users := db.users ++ [{ id := db.nextUserId, name := s }],
                  nextUserId := db.nextUserId + 1 }
      | _ => db := by
  unfold runAddUser add_user
  cases n with
  | vstr s => simp [start_pending, commit_okAll]
  | vint k => rfl
  | vfloat q => rfl

theorem runAddMovie_eq (lk : String → OmdbRes) (db : DB) (uid : Nat) (t : String) :
    runAddMovie lk db uid t =
      match findUser db uid with
      | none => db
      | some _ =>
        match findMovieByTitle db t with
        | some known =>
          if (uid, known.id) ∈ db.assoc then db
          else { db with assoc := db.assoc ++ [(uid, known.id)] }
        | none =>
          match lk t with
          | OmdbRes.err _msg => db
          | OmdbRes.tup5 ft fd fy fr fp =>
            { db with
              movies := db.movies ++
                [{ id := db.nextMovieId, title := ft, director := fd,
                   release_year := PyVal.vstr fy, imdb_rating := PyVal.vstr fr,
                   poster_url := fp }],
              assoc := db.assoc ++ [(uid, db.nextMovieId)],
              nextMovieId := db.nextMovieId + 1 } := by
  unfold runAddMovie add_movie_to_user
  cases hu : findUser db uid with
  | none => simp [start_pending, hu, rollback, start_committed]
  | some U =>
    cases hk : findMovieByTitle db t with
    | some known =>
      by_cases hmem : (uid, known.id) ∈ db.assoc
      · simp [start_pending, hu, hk, hmem, start_committed]
      · simp [start_pending, hu, hk, hmem, commit_okAll]
    | none =>
      cases hl : lk t with
      | err m => simp [start_pending, hu, hk, hl, start_committed]
      | tup5 ft fd fy fr fp => simp [start_pending, hu, hk, hl, commit_okAll]

theorem findMovieByTitle_eq {db : DB} {t : String} {M : Movie}
    (h : findMovieByTitle db t = some M) : M ∈ db.movies ∧ M.title = t := by
  unfold findMovieByTitle at h
  refine ⟨List.mem_of_find?_eq_some h, ?_⟩
  have := List.find?_some h
  simpa using this

theorem afterRemove_users (db : DB) (mid uid : Nat) :
    (afterRemove db mid uid).users = db.users := by
  simp only [afterRemove]; split <;> rfl

theorem afterRemove_nextUserId (db : DB) (mid uid : Nat) :
    (afterRemove db mid uid).nextUserId = db.nextUserId := by
  simp only [afterRemove]; split <;> rfl

theorem afterRemove_nextMovieId (db : DB) (mid uid : Nat) :
    (afterRemove db mid uid).nextMovieId = db.nextMovieId := by
  simp only [afterRemove]; split <;> rfl

theorem Inv_afterRemove (db : DB) (mid uid : Nat) (h : Inv db) :
    Inv (afterRemove db mid uid) := by
  obtain ⟨⟨hfm, hfu, hfa⟩, ⟨hnm, hnu⟩, ho⟩ := h
  unfold afterRemove
  have hAsub : ∀ p, p ∈ db.assoc.filter (fun q => decide (q ≠ (uid, mid))) →
      p ∈ db.assoc := fun p hp => (List.mem_filter.mp hp).1
  by_cases hemp :
      movieUsers
        { db with assoc := db.assoc.filter (fun q => decide (q ≠ (uid, mid))) }
        mid = []
  · rw [if_pos hemp]
    refine ⟨⟨?_, hfu, ?_⟩, ⟨?_, hnu⟩, ?_⟩
    · intro m hm
      exact hfm m (List.mem_filter.mp hm).1
    · intro p hp
      exact hfa p (hAsub p hp)
    · exact List.Nodup.sublist ((List.filter_sublist _).map Movie.id) hnm
    · intro m hm
      obtain ⟨hm1, hm2⟩ := List.mem_filter.mp hm
      have hne : m.id ≠ mid := by simpa using hm2
      obtain ⟨p, hp, hpid⟩ := ho m hm1
      refine ⟨p, List.mem_filter.mpr ⟨hp, ?_⟩, hpid⟩
      simp only [decide_eq_true_eq]
      intro hpe
      exact hne (by rw [← hpid, hpe])
  · rw [if_neg hemp]
    refine ⟨⟨hfm, hfu, fun p hp => hfa p (hAsub p hp)⟩, ⟨hnm, hnu⟩, ?_⟩
    intro m hm
    by_cases hmm : m.id = mid
    · rw [movieUsers_nil_iff] at hemp
      push_neg at hemp
      obtain ⟨p, hp, hpid⟩ := hemp
      exact ⟨p, hp, by rw [hpid, hmm]⟩
    · obtain ⟨p, hp, hpid⟩ := ho m hm
      refine ⟨p, List.mem_filter.mpr ⟨hp, ?_⟩, hpid⟩
      simp only [decide_eq_true_eq]
      intro hpe
      exact hmm (by rw [← hpid, hpe])

theorem Inv_extend (db : DB) (uid : Nat) (M : Movie) (h : Inv db)
    (hid : M.id = db.nextMovieId) (huid : uid < db.nextUserId) :
    Inv { db with movies := db.movies ++ [M],
                  assoc := db.assoc ++ [(uid, M.id)],
                  nextMovieId := db.nextMovieId + 1 } := by
  obtain ⟨⟨hfm, hfu, hfa⟩, ⟨hnm, hnu⟩, ho⟩ := h
  refine ⟨⟨?_, hfu, ?_⟩, ⟨?_, hnu⟩, ?_⟩
  · intro m hm
    rcases List.mem_append.mp hm with h1 | h2
    · exact Nat.lt_succ_of_lt (hfm m h1)
    · have hMe : m = M := by simpa using h2
      subst hMe
      rw [hid]
      exact Nat.lt_succ_self _
  · intro p hp
    rcases List.mem_append.mp hp with h1 | h2
    · exact ⟨(hfa p h1).1, Nat.lt_succ_of_lt (hfa p h1).2⟩
    · have hpe : p = (uid, M.id) := by simpa using h2
      subst hpe
      exact ⟨huid, by rw [hid]; exact Nat.lt_succ_self _⟩
  · rw [List.map_append, List.nodup_append]
    refine ⟨hnm, by simp, ?_⟩
    intro a ha hb
    have hbe : a = M.id := by simpa using hb
    obtain ⟨m, hm3, hid3⟩ := List.mem_map.mp ha
    have : m.id < db.nextMovieId := hfm m hm3
    rw [hid3, hbe, hid] at this
    exact absurd this (lt_irrefl _)
  · intro m hm
    rcases List.mem_append.mp hm with h1 | h2
    · obtain ⟨p, hp, hpid⟩ := ho m h1
      exact ⟨p, List.mem_append_left _ hp, hpid⟩
    · have hMe : m = M := by simpa using h2
      exact ⟨(uid, M.id), List.mem_append_right _ (by simp), by rw [hMe]⟩

theorem Inv_runDelete (db : DB) (mid uid : Nat) (h : Inv db) :
    Inv (runDelete db mid uid) := by
  rw [runDelete_eq]
  cases hm : findMovie db mid with
  | none => exact h
  | some M =>
    cases hu : findUser db uid with
    | none => exact h
    | some U => exact Inv_afterRemove db mid uid h

theorem Inv_runRemove (db : DB) (mid uid : Nat) (h : Inv db) :
    Inv (runRemove db mid uid) := by
  rw [runRemove_eq]
  cases hm : findMovie db mid with
  | none => exact h
  | some M =>
    cases hu : findUser db uid with
    | none => exact h
    | some U => exact Inv_afterRemove db mid uid h

theorem Inv_runAddUser (db : DB) (n : PyVal) (h : Inv db) :
    Inv (runAddUser db n) := by
  rw [runAddUser_eq]
  cases n with
  | vstr s =>
    obtain ⟨⟨hfm, hfu, hfa⟩, ⟨hnm, hnu⟩, ho⟩ := h
    refine ⟨⟨hfm, ?_, ?_⟩, ⟨hnm, ?_⟩, ho⟩
    · intro u hu2
      rcases List.mem_append.mp hu2 with h1 | h2
      · exact Nat.lt_succ_of_lt (hfu u h1)
      · have hue : u = ⟨db.nextUserId, s⟩ := by simpa using h2
        subst hue
        exact Nat.lt_succ_self _
    · intro p hp
      exact ⟨Nat.lt_succ_of_lt (hfa p hp).1, (hfa p hp).2⟩
    · rw [List.map_append, List.nodup_append]
      refine ⟨hnu, by simp, ?_⟩
      intro a ha hb
      have hbe : a = db.nextUserId := by simpa using hb
      obtain ⟨u, hu3, hid3⟩ := List.mem_map.mp ha
      have : u.id < db.nextUserId := hfu u hu3
      rw [hid3, hbe] at this
      exact absurd this (lt_irrefl _)
  | vint k => exact h
  | vfloat q => exact h

theorem Inv_runAddMovie (lk : String → OmdbRes) (db : DB) (uid : Nat)
    (t : String) (h : Inv db) : Inv (runAddMovie lk db uid t) := by
  rw [runAddMovie_eq]
  cases hu : findUser db uid with
  | none => exact h
  | some U =>
    have huid : uid < db.nextUserId := by
      obtain ⟨humem, hid⟩ := findUser_eq hu
      exact hid ▸ h.1.2.1 U humem
    cases hk : findMovieByTitle db t with
    | some known =>
      show Inv (if (uid, known.id) ∈ db.assoc then db
        else { db with assoc := db.assoc ++ [(uid, known.id)] })
      by_cases hmem : (uid, known.id) ∈ db.assoc
      · rw [if_pos hmem]; exact h
      · rw [if_neg hmem]
        obtain ⟨⟨hfm, hfu, hfa⟩, hnd, ho⟩ := h
        have hkm : known ∈ db.movies := (findMovieByTitle_eq hk).1
        refine ⟨⟨hfm, hfu, ?_⟩, hnd, ?_⟩
        · intro p hp
          rcases List.mem_append.mp hp with h1 | h2
          · exact hfa p h1
          · have hpe : p = (uid, known.id) := by simpa using h2
            subst hpe
            exact ⟨huid, hfm known hkm⟩
        · intro m hm
          obtain ⟨p, hp, hpid⟩ := ho m hm
          exact ⟨p, List.mem_append_left _ hp, hpid⟩
    | none =>
      cases hl : lk t with
      | err m2 => exact h
      | tup5 ft fd fy fr fp =>
        exact Inv_extend db uid
          ⟨db.nextMovieId, ft, fd, PyVal.vstr fy, PyVal.vstr fr, fp⟩ h rfl huid

theorem Inv_runUpdate (db : DB) (uid mid : Nat) (t d y r : String) (h : Inv db) :
    Inv (runUpdate db uid mid t d y r) := by
  rw [runUpdate_eq]
  cases hm : findMovie db mid with
  | none => exact h
  | some M =>
    cases hu : findUser db uid with
    | none => exact h
    | some U =>
      have h1 := Inv_afterRemove db mid uid h
      have huid : uid < (afterRemove db mid uid).nextUserId := by
        rw [afterRemove_nextUserId]
        obtain ⟨humem, hid⟩ := findUser_eq hu
        exact hid ▸ h.1.2.1 U humem
      unfold updateResult
      exact Inv_extend (afterRemove db mid uid) uid
        (updMovie (afterRemove db mid uid).nextMovieId t d y r M) h1 rfl huid

theorem Inv_reach {db : DB} (h : Reach db) : Inv db := by
  induction h with
  | init => decide
  | addUser n _ ih => exact Inv_runAddUser _ n ih
  | addMovie lk uid t _ ih => exact Inv_runAddMovie lk _ uid t ih
  | update uid mid t d y r _ ih => exact Inv_runUpdate _ uid mid t d y r ih
  | remove mid uid _ ih => exact Inv_runRemove _ mid uid ih
  | del mid uid _ ih => exact Inv_runDelete _ mid uid ih

theorem commit_cases (ok : Nat → Bool) (s : Sess) :
    commit ok s = (true, ⟨s.pending, s.pending, s.clock + 1⟩) ∨
    commit ok s = (false, ⟨s.committed, s.committed, s.clock + 1⟩) := by
  unfold commit
  by_cases h : ok s.clock = true
  · left; simp [h]
  · right; simp [h]

theorem findUser_users_eq (db db' : DB) (uid : Nat) (h : db'.users = db.users) :
    findUser db' uid = findUser db uid := by
  unfold findUser; rw [h]

theorem find?_append_none {α : Type} (p : α → Bool) (l1 l2 : List α)
    (h : l1.find? p = none) : (l1 ++ l2).find? p = l2.find? p := by
  induction l1 with
  | nil => rfl
  | cons a t ih =>
    rw [List.find?_cons] at h
    rw [List.cons_append, List.find?_cons]
    cases hp : p a with
    | true => rw [hp] at h; exact absurd h (by simp)
    | false =>
      rw [hp] at h
      exact ih h

theorem findMovie_filter_ne (l : List Movie) (mid : Nat) :
    (l.filter (fun m => decide (m.id ≠ mid))).find? (fun m => m.id == mid) =
      none := by
  rw [List.find?_eq_none]
  intro m hm
  have := (List.mem_filter.mp hm).2
  simp only [decide_eq_true_eq] at this
  simpa using this

theorem findMovieByTitle_none {db : DB} {t : String}
    (h : ∀ m ∈ db.movies, m.title ≠ t) : findMovieByTitle db t = none := by
  unfold findMovieByTitle
  rw [List.find?_eq_none]
  intro m hm
  simpa using h m hm

theorem get_user_movies_congr (db db' : DB) (vid : Nat)
    (hu : db'.users = db.users)
    (hm : userMovies db' vid = userMovies db vid) :
    get_user_movies db' vid = get_user_movies db vid := by
  unfold get_user_movies
  rw [findUser_users_eq db db' vid hu]
  cases findUser db vid <;> simp [hm]

theorem afterRemove_assoc (db : DB) (mid uid : Nat) :
    (afterRemove db mid uid).assoc =
      db.assoc.filter (fun q => decide (q ≠ (uid, mid))) := by
  simp only [afterRemove]; split <;> rfl

theorem runAddMovie_new (lk : String → OmdbRes) (db : DB) (uid : Nat)
    (t ft fd fy fr fp : String) (U : User)
    (hu : findUser db uid = some U) (hk : findMovieByTitle db t = none)
    (hlk : lk t = OmdbRes.tup5 ft fd fy fr fp) :
    runAddMovie lk db uid t =
      { db with
        movies := db.movies ++
          [⟨db.nextMovieId, ft, fd, PyVal.vstr fy, PyVal.vstr fr, fp⟩],
        assoc := db.assoc ++ [(uid, db.nextMovieId)],
        nextMovieId := db.nextMovieId + 1 } := by
  rw [runAddMovie_eq]
  simp [hu, hk, hlk]

theorem runAddMovie_existing (lk : String → OmdbRes) (db : DB) (uid : Nat)
    (t : String) (known : Movie) (U : User)
    (hu : findUser db uid = some U) (hk : findMovieByTitle db t = some known)
    (hmem : (uid, known.id) ∉ db.assoc) :
    runAddMovie lk db uid t = { db with assoc := db.assoc ++ [(uid, known.id)] } := by
  rw [runAddMovie_eq]
  simp only [hu, hk]
  rw [if_neg hmem]

/-! ### Claims -/

/-- Counterexample to claim C2 as stated: `remove_movie_from_user` commits
the association removal and only then, in a second commit, deletes the
orphaned movie row.  When the backend fails at that second commit (oracle
allows exactly the first commit), the operation completes via its error
handler (returning `None`), yet the committed store retains a movie row
with an empty association set, and that row is still listed by
`get_all_movies` — so the unconditional orphan invariant is false at this
input. -/
theorem orphan_after_failed_delete_commit_cex :
    (remove_movie_from_user (fun n => n == 0)
        (Sess.start ⟨[⟨1, "alice"⟩],
          [⟨1, "T", "D", PyVal.vstr "2010", PyVal.vstr "8.8", "P"⟩],
          [(1, 1)], 2, 2⟩) 1 1).1 = none ∧
    (⟨1, "T", "D", PyVal.vstr "2010", PyVal.vstr "8.8", "P"⟩ : Movie) ∈
      get_all_movies (remove_movie_from_user (fun n => n == 0)
        (Sess.start ⟨[⟨1, "alice"⟩],
          [⟨1, "T", "D", PyVal.vstr "2010", PyVal.vstr "8.8", "P"⟩],
          [(1, 1)], 2, 2⟩) 1 1).2.committed ∧
    (remove_movie_from_user (fun n => n == 0)
        (Sess.start ⟨[⟨1, "alice"⟩],
          [⟨1, "T", "D", PyVal.vstr "2010", PyVal.vstr "8.8", "P"⟩],
          [(1, 1)], 2, 2⟩) 1 1).2.committed.assoc = [] := by
  decide

/-- Claim C2 (amended).  In every state reachable from the empty store by
data manager operations (`add_user`, `add_movie_to_user`, `update_movie`,
`remove_movie_from_user`, `delete_movie`) in runs where the storage
backend never fails, no movie row with an empty association set exists:
every movie returned by `get_all_movies` has at least one association, so
a movie whose last association is removed is deleted in the same operation
and absent from the list of all movies immediately after.  (Without the
failure-free condition the invariant fails: a backend failure between the
two commits of an association removal leaves an orphaned row committed.) -/
theorem reachable_no_orphan_movies (db : DB) (h : Reach db) :
    ∀ m ∈ get_all_movies db, ∃ p ∈ db.assoc, p.2 = m.id := by
  intro m hm
  exact (Inv_reach h).2.2 m hm

/-- Witness for C2: in the concrete state reached by adding a user and then
a movie for that user, the stored movie (id 1) has an association. -/
theorem reachable_no_orphan_movies_w :
    ∃ p ∈ (runAddMovie (fun _ => OmdbRes.tup5 "Inception" "Nolan" "2010" "8.8" "P")
        (runAddUser emptyDB (PyVal.vstr "alice")) 1 "Inception").assoc,
      p.2 = 1 :=
  reachable_no_orphan_movies _
    (Reach.addMovie _ 1 "Inception" (Reach.addUser (PyVal.vstr "alice") Reach.init))
    ⟨1, "Inception", "Nolan", PyVal.vstr "2010", PyVal.vstr "8.8", "P"⟩
    (by decide)

/-- Claim C8 (confirmed).  For a resolving user id and a title absent from
the movie pool, if the metadata lookup returns anything other than the
five-field success tuple, `add_movie_to_user` returns the lookup-failed
status ("Data is invalid") and the session is left exactly as it started:
no movie row is created and no association is added, for any failure
oracle. -/
theorem add_movie_lookup_failed_no_change (lk : String → OmdbRes)
    (ok : Nat → Bool) (db : DB) (uid : Nat) (title msg : String) (U : User)
    (hu : findUser db uid = some U)
    (hk : findMovieByTitle db title = none)
    (hlk : lk title = OmdbRes.err msg) :
    add_movie_to_user lk ok (Sess.start db) uid title =
      (some "Data is invalid", Sess.start db) := by
  unfold add_movie_to_user
  simp [start_pending, hu, hk, hlk]

/-- Witness for C8: a concrete failing lookup leaves the concrete store
unchanged. -/
theorem add_movie_lookup_failed_no_change_w :
    add_movie_to_user (fun _ => OmdbRes.err "Movie not found!") okAll
        (Sess.start ⟨[⟨1, "alice"⟩], [], [], 2, 1⟩) 1 "Inception" =
      (some "Data is invalid", Sess.start ⟨[⟨1, "alice"⟩], [], [], 2, 1⟩) :=
  add_movie_lookup_failed_no_change _ okAll _ 1 "Inception" "Movie not found!"
    ⟨1, "alice"⟩ (by decide) (by decide) rfl

/-- Claim C9 (code_bug).  The schema declared by `data_models.py` does not
carry the field set asserted by the specification: it has no inline
`director` string and no `poster_url` column, and `release_year` is mapped
as a string, while `add_movie_to_user` passes a `poster_url` keyword that
the mapped class does not accept (so constructing the row raises
`TypeError`). -/
theorem movie_schema_mismatch :
    movieTableColumns ≠ specMovieFields ∧
    ("poster_url" ∈ addMovieCtorKwargs ∧ "poster_url" ∉ movieMappedAttrs) ∧
    ("director", ColTy.colStr) ∉ movieTableColumns ∧
    ("release_year", ColTy.colStr) ∈ movieTableColumns ∧
    ("release_year", ColTy.colInt) ∉ movieTableColumns := by
  decide

/-- Claim C6 (confirmed).  For resolving ids, `update_movie` succeeds even
when the numeric inputs do not parse: the inserted row is the last movie in
the store, and its `release_year` (resp. `imdb_rating`) equals the original
movie's value whenever `release_year` does not parse as an integer (resp.
`imdb_rating` does not parse as a float); malformed numeric input is
recoverable, not a hard failure. -/
theorem update_numeric_fallback (db : DB) (uid mid : Nat) (U : User)
    (M : Movie) (t d y r : String)
    (hm : findMovie db mid = some M) (hu : findUser db uid = some U) :
    (update_movie okAll (Sess.start db) uid mid t d y r).1 =
      some (M.title ++ " updated!") ∧
    (update_movie okAll (Sess.start db) uid mid t d y r).2.committed.movies.getLast?
      = some (updMovie db.nextMovieId t d y r M) ∧
    (pyInt y = none →
      (updMovie db.nextMovieId t d y r M).release_year = M.release_year) ∧
    (pyFloat r = none →
      (updMovie db.nextMovieId t d y r M).imdb_rating = M.imdb_rating) := by
  rw [update_movie_okAll db uid mid t d y r M U hm hu]
  refine ⟨rfl, ?_, ?_, ?_⟩
  · show (updateResult db uid mid t d y r M).movies.getLast? = _
    simp only [updateResult]
    rw [afterRemove_nextMovieId]
    exact List.getLast?_concat _
  · intro h
    simp [updMovie, h]
  · intro h
    simp [updMovie, h]

/-- Witness for C6: a concrete update with non-numeric "abc" and "zz"
inputs succeeds and keeps the original year and rating. -/
theorem update_numeric_fallback_w :
    (update_movie okAll
        (Sess.start ⟨[⟨1, "alice"⟩],
          [⟨1, "T", "D", PyVal.vstr "2010", PyVal.vstr "8.8", "P"⟩],
          [(1, 1)], 2, 2⟩) 1 1 "NT" "ND" "abc" "zz").1 =
      some ("T" ++ " updated!") ∧
    (update_movie okAll
        (Sess.start ⟨[⟨1, "alice"⟩],
          [⟨1, "T", "D", PyVal.vstr "2010", PyVal.vstr "8.8", "P"⟩],
          [(1, 1)], 2, 2⟩) 1 1 "NT" "ND" "abc" "zz").2.committed.movies.getLast?
      = some (updMovie 2 "NT" "ND" "abc" "zz"
          ⟨1, "T", "D", PyVal.vstr "2010", PyVal.vstr "8.8", "P"⟩) ∧
    (pyInt "abc" = none →
      (updMovie 2 "NT" "ND" "abc" "zz"
          ⟨1, "T", "D", PyVal.vstr "2010", PyVal.vstr "8.8", "P"⟩).release_year =
        PyVal.vstr "2010") ∧
    (pyFloat "zz" = none →
      (updMovie 2 "NT" "ND" "abc" "zz"
          ⟨1, "T", "D", PyVal.vstr "2010", PyVal.vstr "8.8", "P"⟩).imdb_rating =
        PyVal.vstr "8.8") :=
  update_numeric_fallback _ 1 1 ⟨1, "alice"⟩
    ⟨1, "T", "D", PyVal.vstr "2010", PyVal.vstr "8.8", "P"⟩ "NT" "ND" "abc" "zz"
    (by decide) (by decide)

/-- Claim C3 (confirmed).  When user `uid` updates movie `mid` that a
different user `vid` also has, the original movie record `M` is still
stored unchanged, `vid` is still associated with it and listing `vid`'s
movies returns exactly what it returned before; only `uid`'s association
moves to the freshly inserted row. -/
theorem update_preserves_other_user_view (db : DB) (uid vid mid : Nat)
    (U V : User) (M : Movie) (t d y r : String)
    (hU : findUser db uid = some U) (hV : findUser db vid = some V)
    (hM : findMovie db mid = some M)
    (huv : uid ≠ vid)
    (hVm : (vid, mid) ∈ db.assoc)
    (hfresh : idsFresh db) :
    M ∈ (runUpdate db uid mid t d y r).movies ∧
    (vid, mid) ∈ (runUpdate db uid mid t d y r).assoc ∧
    get_user_movies (runUpdate db uid mid t d y r) vid =
      get_user_movies db vid ∧
    (uid, mid) ∉ (runUpdate db uid mid t d y r).assoc ∧
    (uid, db.nextMovieId) ∈ (runUpdate db uid mid t d y r).assoc ∧
    updMovie db.nextMovieId t d y r M ∈ (runUpdate db uid mid t d y r).movies := by
  have hMmem := (findMovie_eq hM).1
  have hMid := (findMovie_eq hM).2
  have hmidlt : mid < db.nextMovieId := hMid ▸ hfresh.1 M hMmem
  have hpairne : ((vid, mid) : Nat × Nat) ≠ (uid, mid) := by
    intro hcontra
    exact huv (congrArg Prod.fst hcontra).symm
  have hVmA : (vid, mid) ∈ db.assoc.filter (fun q => decide (q ≠ (uid, mid))) :=
    List.mem_filter.mpr ⟨hVm, by simpa using hpairne⟩
  have hemp : ¬ movieUsers
      { db with assoc := db.assoc.filter (fun q => decide (q ≠ (uid, mid))) }
      mid = [] := by
    rw [movieUsers_nil_iff]
    push_neg
    exact ⟨(vid, mid), hVmA, rfl⟩
  have hAR : afterRemove db mid uid =
      { db with assoc := db.assoc.filter (fun q => decide (q ≠ (uid, mid))) } := by
    unfold afterRemove
    simp only []
    rw [if_neg hemp]
  have hdb2 : runUpdate db uid mid t d y r =
      { db with
        movies := db.movies ++ [updMovie db.nextMovieId t d y r M],
        assoc := db.assoc.filter (fun q => decide (q ≠ (uid, mid))) ++
          [(uid, db.nextMovieId)],
        nextMovieId := db.nextMovieId + 1 } := by
    rw [runUpdate_eq, hM, hU]
    simp only [updateResult]
    rw [hAR]
  rw [hdb2]
  have hnotinA : ∀ k : Nat, db.nextMovieId ≤ k →
      ∀ w : Nat, ((w, k) : Nat × Nat) ∉
        db.assoc.filter (fun q => decide (q ≠ (uid, mid))) := by
    intro k hk w hcon
    have hmem2 := (List.mem_filter.mp hcon).1
    have := (hfresh.2.2 (w, k) hmem2).2
    exact absurd (lt_of_le_of_lt hk this) (lt_irrefl _)
  refine ⟨List.mem_append_left _ hMmem, List.mem_append_left _ hVmA, ?_, ?_, ?_, ?_⟩
  · -- listing vid's movies is unchanged
    refine get_user_movies_congr db _ vid (by rfl) ?_
    unfold userMovies
    show (db.movies ++ [updMovie db.nextMovieId t d y r M]).filter
        (fun m => decide ((vid, m.id) ∈
          db.assoc.filter (fun q => decide (q ≠ (uid, mid))) ++
            [(uid, db.nextMovieId)])) =
      db.movies.filter (fun m => decide ((vid, m.id) ∈ db.assoc))
    rw [List.filter_append]
    have h1 : ([updMovie db.nextMovieId t d y r M]).filter
        (fun m => decide ((vid, m.id) ∈
          db.assoc.filter (fun q => decide (q ≠ (uid, mid))) ++
            [(uid, db.nextMovieId)])) = [] := by
      have hnm : ((vid, db.nextMovieId) : Nat × Nat) ∉
          db.assoc.filter (fun q => decide (q ≠ (uid, mid))) ++
            [(uid, db.nextMovieId)] := by
        intro hcon
        rcases List.mem_append.mp hcon with h2 | h2
        · exact hnotinA _ (le_refl _) _ h2
        · have : vid = uid := by
            have h3 : ((vid, db.nextMovieId) : Nat × Nat) = (uid, db.nextMovieId) := by
              simpa using h2
            exact congrArg Prod.fst h3
          exact huv this.symm
      refine List.filter_eq_nil_iff.mpr ?_
      intro m hm5
      have hm6 : m = updMovie db.nextMovieId t d y r M := by simpa using hm5
      subst hm6
      simp only [decide_eq_true_eq]
      exact hnm
    rw [h1, List.append_nil]
    have h2 : ∀ m ∈ db.movies,
        (decide ((vid, m.id) ∈
          db.assoc.filter (fun q => decide (q ≠ (uid, mid))) ++
            [(uid, db.nextMovieId)])) =
        (decide ((vid, m.id) ∈ db.assoc)) := by
      intro m hm2
      apply decide_eq_decide.mpr
      constructor
      · intro h3
        rcases List.mem_append.mp h3 with h4 | h4
        · exact (List.mem_filter.mp h4).1
        · have h5 : ((vid, m.id) : Nat × Nat) = (uid, db.nextMovieId) := by
            simpa using h4
          exact absurd (congrArg Prod.fst h5).symm huv
      · intro h3
        apply List.mem_append_left
        apply List.mem_filter.mpr
        refine ⟨h3, ?_⟩
        simp only [decide_eq_true_eq]
        intro h5
        exact huv (congrArg Prod.fst h5).symm
    rw [List.filter_congr h2]
  · -- uid's association to mid is gone
    intro hcon
    rcases List.mem_append.mp hcon with h2 | h2
    · have := (List.mem_filter.mp h2).2
      simp at this
    · have h3 : mid = db.nextMovieId := by
        have h4 : ((uid, mid) : Nat × Nat) = (uid, db.nextMovieId) := by simpa using h2
        exact congrArg Prod.snd h4
      rw [h3] at hmidlt
      exact absurd hmidlt (lt_irrefl _)
  · exact List.mem_append_right _ (by simp)
  · exact List.mem_append_right _ (by simp)

/-- Witness for C3: a concrete shared movie, updated by user 1, stays
intact and visible for user 2. -/
theorem update_preserves_other_user_view_w :
    (⟨1, "T", "D", PyVal.vstr "2010", PyVal.vstr "8.8", "P"⟩ : Movie) ∈
      (runUpdate ⟨[⟨1, "alice"⟩, ⟨2, "bob"⟩],
        [⟨1, "T", "D", PyVal.vstr "2010", PyVal.vstr "8.8", "P"⟩],
        [(1, 1), (2, 1)], 3, 2⟩ 1 1 "NT" "ND" "1999" "9.0").movies ∧
    (2, 1) ∈ (runUpdate ⟨[⟨1, "alice"⟩, ⟨2, "bob"⟩],
        [⟨1, "T", "D", PyVal.vstr "2010", PyVal.vstr "8.8", "P"⟩],
        [(1, 1), (2, 1)], 3, 2⟩ 1 1 "NT" "ND" "1999" "9.0").assoc ∧
    get_user_movies (runUpdate ⟨[⟨1, "alice"⟩, ⟨2, "bob"⟩],
        [⟨1, "T", "D", PyVal.vstr "2010", PyVal.vstr "8.8", "P"⟩],
        [(1, 1), (2, 1)], 3, 2⟩ 1 1 "NT" "ND" "1999" "9.0") 2 =
      get_user_movies ⟨[⟨1, "alice"⟩, ⟨2, "bob"⟩],
        [⟨1, "T", "D", PyVal.vstr "2010", PyVal.vstr "8.8", "P"⟩],
        [(1, 1), (2, 1)], 3, 2⟩ 2 ∧
    (1, 1) ∉ (runUpdate ⟨[⟨1, "alice"⟩, ⟨2, "bob"⟩],
        [⟨1, "T", "D", PyVal.vstr "2010", PyVal.vstr "8.8", "P"⟩],
        [(1, 1), (2, 1)], 3, 2⟩ 1 1 "NT" "ND" "1999" "9.0").assoc ∧
    (1, 2) ∈ (runUpdate ⟨[⟨1, "alice"⟩, ⟨2, "bob"⟩],
        [⟨1, "T", "D", PyVal.vstr "2010", PyVal.vstr "8.8", "P"⟩],
        [(1, 1), (2, 1)], 3, 2⟩ 1 1 "NT" "ND" "1999" "9.0").assoc ∧
    updMovie 2 "NT" "ND" "1999" "9.0"
        ⟨1, "T", "D", PyVal.vstr "2010", PyVal.vstr "8.8", "P"⟩ ∈
      (runUpdate ⟨[⟨1, "alice"⟩, ⟨2, "bob"⟩],
        [⟨1, "T", "D", PyVal.vstr "2010", PyVal.vstr "8.8", "P"⟩],
        [(1, 1), (2, 1)], 3, 2⟩ 1 1 "NT" "ND" "1999" "9.0").movies :=
  update_preserves_other_user_view _ 1 2 1 ⟨1, "alice"⟩ ⟨2, "bob"⟩
    ⟨1, "T", "D", PyVal.vstr "2010", PyVal.vstr "8.8", "P"⟩ "NT" "ND" "1999" "9.0"
    (by decide) (by decide) (by decide) (by decide) (by decide) (by decide)

/-- Counterexample to claim C1 as stated: with a metadata lookup whose
returned title ("Other") differs from the requested title ("Inception"),
after two different resolving users each add "Inception" with successful
lookups, NO movie row with title "Inception" exists (both created rows are
titled "Other"), so "exactly one Movie row with title T, associated with
both users" is false at this input. -/
theorem dedup_invariant_cex :
    ((runAddMovie (fun _ => OmdbRes.tup5 "Other" "Nolan" "2010" "8.8" "P")
        (runAddMovie (fun _ => OmdbRes.tup5 "Other" "Nolan" "2010" "8.8" "P")
          ⟨[⟨1, "alice"⟩, ⟨2, "bob"⟩], [], [], 3, 1⟩ 1 "Inception")
        2 "Inception").movies.filter
      (fun m => decide (m.title = "Inception"))).length = 0 ∧
    (runAddMovie (fun _ => OmdbRes.tup5 "Other" "Nolan" "2010" "8.8" "P")
        (runAddMovie (fun _ => OmdbRes.tup5 "Other" "Nolan" "2010" "8.8" "P")
          ⟨[⟨1, "alice"⟩, ⟨2, "bob"⟩], [], [], 3, 1⟩ 1 "Inception")
        2 "Inception").movies.length = 2 := by
  decide

/-- Claim C1 (amended).  If additionally the metadata lookup returns the
requested title itself, then after two different resolving users each add
title `T` (the first triggering a successful lookup and a new row),
exactly one movie row with title `T` exists and it is associated with both
users. -/
theorem dedup_when_lookup_returns_requested (db : DB) (lk : String → OmdbRes)
    (uidA uidB : Nat) (A B : User) (T d y r p : String)
    (hA : findUser db uidA = some A) (hB : findUser db uidB = some B)
    (hAB : uidA ≠ uidB)
    (hT : ∀ m ∈ db.movies, m.title ≠ T)
    (hlk : lk T = OmdbRes.tup5 T d y r p)
    (hfresh : idsFresh db) :
    (runAddMovie lk (runAddMovie lk db uidA T) uidB T).movies.filter
        (fun m => decide (m.title = T)) =
      [⟨db.nextMovieId, T, d, PyVal.vstr y, PyVal.vstr r, p⟩] ∧
    (uidA, db.nextMovieId) ∈
      (runAddMovie lk (runAddMovie lk db uidA T) uidB T).assoc ∧
    (uidB, db.nextMovieId) ∈
      (runAddMovie lk (runAddMovie lk db uidA T) uidB T).assoc := by
  have hk1 : findMovieByTitle db T = none := findMovieByTitle_none hT
  have hdb1 : runAddMovie lk db uidA T =
      { db with
        movies := db.movies ++
          [⟨db.nextMovieId, T, d, PyVal.vstr y, PyVal.vstr r, p⟩],
        assoc := db.assoc ++ [(uidA, db.nextMovieId)],
        nextMovieId := db.nextMovieId + 1 } :=
    runAddMovie_new lk db uidA T T d y r p A hA hk1 hlk
  rw [hdb1]
  have hk2 : findMovieByTitle
      { db with
        movies := db.movies ++
          [⟨db.nextMovieId, T, d, PyVal.vstr y, PyVal.vstr r, p⟩],
        assoc := db.assoc ++ [(uidA, db.nextMovieId)],
        nextMovieId := db.nextMovieId + 1 } T =
      some ⟨db.nextMovieId, T, d, PyVal.vstr y, PyVal.vstr r, p⟩ := by
    unfold findMovieByTitle
    show (db.movies ++ [_]).find? _ = _
    rw [find?_append_none _ _ _ hk1]
    simp
  have hmem2 : ((uidB, db.nextMovieId) : Nat × Nat) ∉
      db.assoc ++ [(uidA, db.nextMovieId)] := by
    intro hcon
    rcases List.mem_append.mp hcon with h2 | h2
    · exact absurd (hfresh.2.2 _ h2).2 (lt_irrefl _)
    · have h3 : uidB = uidA := by
        have h4 : ((uidB, db.nextMovieId) : Nat × Nat) = (uidA, db.nextMovieId) := by
          simpa using h2
        exact congrArg Prod.fst h4
      exact hAB h3.symm
  have hdb2 := runAddMovie_existing lk
    { db with
      movies := db.movies ++
        [⟨db.nextMovieId, T, d, PyVal.vstr y, PyVal.vstr r, p⟩],
      assoc := db.assoc ++ [(uidA, db.nextMovieId)],
      nextMovieId := db.nextMovieId + 1 } uidB T
    ⟨db.nextMovieId, T, d, PyVal.vstr y, PyVal.vstr r, p⟩ B hB hk2 hmem2
  rw [hdb2]
  refine ⟨?_, ?_, ?_⟩
  · show (db.movies ++ [_]).filter _ = _
    rw [List.filter_append]
    have h1 : db.movies.filter (fun m => decide (m.title = T)) = [] := by
      refine List.filter_eq_nil_iff.mpr ?_
      intro m hm
      simpa using hT m hm
    rw [h1, List.nil_append]
    simp
  · exact List.mem_append_left _ (List.mem_append_right _ (by simp))
  · exact List.mem_append_right _ (by simp)

/-- Witness for the amended C1: a concrete lookup that returns the
requested title yields one shared row associated with both users. -/
theorem dedup_when_lookup_returns_requested_w :
    (runAddMovie (fun _ => OmdbRes.tup5 "Inception" "Nolan" "2010" "8.8" "P")
        (runAddMovie (fun _ => OmdbRes.tup5 "Inception" "Nolan" "2010" "8.8" "P")
          ⟨[⟨1, "alice"⟩, ⟨2, "bob"⟩], [], [], 3, 1⟩ 1 "Inception")
        2 "Inception").movies.filter
      (fun m => decide (m.title = "Inception")) =
      [⟨1, "Inception", "Nolan", PyVal.vstr "2010", PyVal.vstr "8.8", "P"⟩] ∧
    (1, 1) ∈ (runAddMovie (fun _ => OmdbRes.tup5 "Inception" "Nolan" "2010" "8.8" "P")
        (runAddMovie (fun _ => OmdbRes.tup5 "Inception" "Nolan" "2010" "8.8" "P")
          ⟨[⟨1, "alice"⟩, ⟨2, "bob"⟩], [], [], 3, 1⟩ 1 "Inception")
        2 "Inception").assoc ∧
    (2, 1) ∈ (runAddMovie (fun _ => OmdbRes.tup5 "Inception" "Nolan" "2010" "8.8" "P")
        (runAddMovie (fun _ => OmdbRes.tup5 "Inception" "Nolan" "2010" "8.8" "P")
          ⟨[⟨1, "alice"⟩, ⟨2, "bob"⟩], [], [], 3, 1⟩ 1 "Inception")
        2 "Inception").assoc :=
  dedup_when_lookup_returns_requested _ _ 1 2 ⟨1, "alice"⟩ ⟨2, "bob"⟩
    "Inception" "Nolan" "2010" "8.8" "P" (by decide) (by decide) (by decide)
    (by decide) rfl (by decide)

/-- Claim C10 (confirmed).  `add_movie_to_user` stores the title returned
by the lookup (`ft`), not the requested title `T`, while the dedup search
compares stored titles against the requested title: when `ft ≠ T`, the
search after the first add still misses, and a second add of the same
requested title creates a second row for the same movie. -/
theorem add_movie_stores_fetched_title (db : DB) (lk : String → OmdbRes)
    (uidA uidB : Nat) (A B : User) (T ft d y r p : String)
    (hA : findUser db uidA = some A) (hB : findUser db uidB = some B)
    (hT : ∀ m ∈ db.movies, m.title ≠ T)
    (hlk : lk T = OmdbRes.tup5 ft d y r p)
    (hft : ft ≠ T) :
    (runAddMovie lk db uidA T).movies =
      db.movies ++ [⟨db.nextMovieId, ft, d, PyVal.vstr y, PyVal.vstr r, p⟩] ∧
    findMovieByTitle (runAddMovie lk db uidA T) T = none ∧
    (runAddMovie lk (runAddMovie lk db uidA T) uidB T).movies =
      (db.movies ++ [⟨db.nextMovieId, ft, d, PyVal.vstr y, PyVal.vstr r, p⟩]) ++
        [⟨db.nextMovieId + 1, ft, d, PyVal.vstr y, PyVal.vstr r, p⟩] := by
  have hk1 : findMovieByTitle db T = none := findMovieByTitle_none hT
  have hdb1 : runAddMovie lk db uidA T =
      { db with
        movies := db.movies ++
          [⟨db.nextMovieId, ft, d, PyVal.vstr y, PyVal.vstr r, p⟩],
        assoc := db.assoc ++ [(uidA, db.nextMovieId)],
        nextMovieId := db.nextMovieId + 1 } :=
    runAddMovie_new lk db uidA T ft d y r p A hA hk1 hlk
  rw [hdb1]
  have hk2 : findMovieByTitle
      { db with
        movies := db.movies ++
          [⟨db.nextMovieId, ft, d, PyVal.vstr y, PyVal.vstr r, p⟩],
        assoc := db.assoc ++ [(uidA, db.nextMovieId)],
        nextMovieId := db.nextMovieId + 1 } T = none := by
    unfold findMovieByTitle
    show (db.movies ++ [_]).find? _ = _
    rw [find?_append_none _ _ _ hk1]
    simp [hft]
  have hdb2 : runAddMovie lk
      { db with
        movies := db.movies ++
          [⟨db.nextMovieId, ft, d, PyVal.vstr y, PyVal.vstr r, p⟩],
        assoc := db.assoc ++ [(uidA, db.nextMovieId)],
        nextMovieId := db.nextMovieId + 1 } uidB T =
      { db with
        movies := (db.movies ++
          [⟨db.nextMovieId, ft, d, PyVal.vstr y, PyVal.vstr r, p⟩]) ++
          [⟨db.nextMovieId + 1, ft, d, PyVal.vstr y, PyVal.vstr r, p⟩],
        assoc := (db.assoc ++ [(uidA, db.nextMovieId)]) ++
          [(uidB, db.nextMovieId + 1)],
        nextMovieId := db.nextMovieId + 1 + 1 } :=
    runAddMovie_new lk _ uidB T ft d y r p B hB hk2 hlk
  rw [hdb2]
  exact ⟨rfl, hk2, rfl⟩

/-- Witness for C10: a concrete lookup returning "Other" for request
"Inception" produces two distinct rows titled "Other". -/
theorem add_movie_stores_fetched_title_w :
    (runAddMovie (fun _ => OmdbRes.tup5 "Other" "Nolan" "2010" "8.8" "P")
        ⟨[⟨1, "alice"⟩, ⟨2, "bob"⟩], [], [], 3, 1⟩ 1 "Inception").movies =
      [] ++ [⟨1, "Other", "Nolan", PyVal.vstr "2010", PyVal.vstr "8.8", "P"⟩] ∧
    findMovieByTitle (runAddMovie (fun _ => OmdbRes.tup5 "Other" "Nolan" "2010" "8.8" "P")
        ⟨[⟨1, "alice"⟩, ⟨2, "bob"⟩], [], [], 3, 1⟩ 1 "Inception") "Inception" = none ∧
    (runAddMovie (fun _ => OmdbRes.tup5 "Other" "Nolan" "2010" "8.8" "P")
        (runAddMovie (fun _ => OmdbRes.tup5 "Other" "Nolan" "2010" "8.8" "P")
          ⟨[⟨1, "alice"⟩, ⟨2, "bob"⟩], [], [], 3, 1⟩ 1 "Inception")
        2 "Inception").movies =
      ([] ++ [⟨1, "Other", "Nolan", PyVal.vstr "2010", PyVal.vstr "8.8", "P"⟩]) ++
        [⟨2, "Other", "Nolan", PyVal.vstr "2010", PyVal.vstr "8.8", "P"⟩] :=
  add_movie_stores_fetched_title _ _ 1 2 ⟨1, "alice"⟩ ⟨2, "bob"⟩
    "Inception" "Other" "Nolan" "2010" "8.8" "P" (by decide) (by decide)
    (by decide) rfl (by decide)

/-- Counterexample to claim C4 as stated: `update_movie` calls
`delete_movie`, which commits the association removal; when the backend
fails at the final commit (oracle allows exactly the first commit), the
operation fails (returns `none`) yet the committed store differs from the
initial store — the old association is durably gone and no new row was
added, so the partial write was NOT rolled back. -/
theorem update_not_transactional_cex :
    (update_movie (fun n => n == 0)
        (Sess.start ⟨[⟨1, "alice"⟩, ⟨2, "bob"⟩],
          [⟨1, "T", "D", PyVal.vstr "2010", PyVal.vstr "8.8", "P"⟩],
          [(1, 1), (2, 1)], 3, 2⟩) 1 1 "NT" "ND" "1999" "9.9").1 = none ∧
    (update_movie (fun n => n == 0)
        (Sess.start ⟨[⟨1, "alice"⟩, ⟨2, "bob"⟩],
          [⟨1, "T", "D", PyVal.vstr "2010", PyVal.vstr "8.8", "P"⟩],
          [(1, 1), (2, 1)], 3, 2⟩) 1 1 "NT" "ND" "1999" "9.9").2.committed ≠
      ⟨[⟨1, "alice"⟩, ⟨2, "bob"⟩],
        [⟨1, "T", "D", PyVal.vstr "2010", PyVal.vstr "8.8", "P"⟩],
        [(1, 1), (2, 1)], 3, 2⟩ := by
  decide

/-- Claim C4 (amended).  The single-commit operations `add_movie_to_user`
and `add_user` are internally transactional: whenever they fail (a `None`
result, a failed commit, or the pre-write `TypeError`), the committed
store is exactly as it was before the operation, for every failure oracle.
(The multi-commit operations `update_movie`, `remove_movie_from_user` and
`delete_movie` commit intermediate states and do not enjoy this.) -/
theorem single_commit_ops_transactional (lk : String → OmdbRes)
    (ok : Nat → Bool) (db : DB) (uid : Nat) (title : String) (name : PyVal) :
    ((add_movie_to_user lk ok (Sess.start db) uid title).1 = none →
      (add_movie_to_user lk ok (Sess.start db) uid title).2.committed = db) ∧
    ((add_user ok (Sess.start db) name).1 = Except.ok none ∨
        (add_user ok (Sess.start db) name).1 = Except.error "TypeError" →
      (add_user ok (Sess.start db) name).2.committed = db) := by
  constructor
  · unfold add_movie_to_user
    simp only [start_pending]
    split
    · intro _; rfl
    · split
      · rename_i known heq2
        by_cases hmem : (uid, known.id) ∈ db.assoc
        · rw [if_pos hmem]
          intro h
          exact absurd h (by simp)
        · rw [if_neg hmem]
          split
          · intro h
            exact absurd h (by simp)
          · next s2 heq =>
            intro _
            unfold commit at heq
            split at heq
            · simp at heq
            · injection heq with hb hs
              rw [← hs]
              rfl
      · split
        · intro h
          exact absurd h (by simp)
        · split
          · intro h
            exact absurd h (by simp)
          · next s2 heq =>
            intro _
            unfold commit at heq
            split at heq
            · simp at heq
            · injection heq with hb hs
              rw [← hs]
              rfl
  · unfold add_user
    split
    · simp only [start_pending]
      split
      · intro h
        rcases h with h | h <;> simp at h
      · next s2 heq =>
        intro _
        unfold commit at heq
        split at heq
        · simp at heq
        · injection heq with hb hs
          rw [← hs]
          rfl
    · intro _
      rfl

/-- Witness for the amended C4: a failing add (unresolved user id) leaves
the concrete store untouched. -/
theorem single_commit_ops_transactional_w :
    (add_movie_to_user (fun _ => OmdbRes.err "E") (fun _ => false)
        (Sess.start ⟨[⟨1, "alice"⟩], [], [], 2, 1⟩) 7 "X").2.committed =
      ⟨[⟨1, "alice"⟩], [], [], 2, 1⟩ :=
  (single_commit_ops_transactional (fun _ => OmdbRes.err "E") (fun _ => false)
    ⟨[⟨1, "alice"⟩], [], [], 2, 1⟩ 7 "X" (PyVal.vint 0)).1 (by decide)

/-- Counterexample to claim C5 as stated: with a sole-owner movie, the
first `remove_movie_from_user` succeeds and deletes the row; the second
call then finds no movie with that id and takes the `ValueError`
(not-found) path, returning `None` rather than a success or no-op result. -/
theorem remove_twice_notfound_cex :
    (remove_movie_from_user okAll
        (Sess.start ⟨[⟨1, "alice"⟩],
          [⟨1, "T", "D", PyVal.vstr "2010", PyVal.vstr "8.8", "P"⟩],
          [(1, 1)], 2, 2⟩) 1 1).1 ≠ none ∧
    (remove_movie_from_user okAll
        (Sess.start (remove_movie_from_user okAll
          (Sess.start ⟨[⟨1, "alice"⟩],
            [⟨1, "T", "D", PyVal.vstr "2010", PyVal.vstr "8.8", "P"⟩],
            [(1, 1)], 2, 2⟩) 1 1).2.committed) 1 1).1 = none := by
  decide

/-- Claim C5 (amended).  For resolving ids, removing twice in a row leaves
the committed store after the second call equal to the store after the
first call; the first call returns a success message; the second call
returns the success message exactly when the movie row survived the first
call (another user still associated), and takes the not-found path
(returning `None`) when the first call deleted the row. -/
theorem remove_twice_idempotent_state (db : DB) (mid uid : Nat) (M : Movie)
    (U : User) (hm : findMovie db mid = some M) (hu : findUser db uid = some U) :
    (remove_movie_from_user okAll
        (Sess.start (remove_movie_from_user okAll (Sess.start db) mid uid).2.committed)
        mid uid).2.committed =
      (remove_movie_from_user okAll (Sess.start db) mid uid).2.committed ∧
    (remove_movie_from_user okAll (Sess.start db) mid uid).1 ≠ none ∧
    (findMovie (remove_movie_from_user okAll (Sess.start db) mid uid).2.committed
        mid = none →
      (remove_movie_from_user okAll
        (Sess.start (remove_movie_from_user okAll (Sess.start db) mid uid).2.committed)
        mid uid).1 = none) ∧
    (∀ M2, findMovie
        (remove_movie_from_user okAll (Sess.start db) mid uid).2.committed mid =
          some M2 →
      (remove_movie_from_user okAll
        (Sess.start (remove_movie_from_user okAll (Sess.start db) mid uid).2.committed)
        mid uid).1 =
        some ("Successfully removed " ++ M2.title ++ " from your list.")) := by
  have h1c : (remove_movie_from_user okAll (Sess.start db) mid uid).2.committed =
      afterRemove db mid uid := by
    rw [remove_movie_okAll db mid uid M U hm hu]
  have h1r : (remove_movie_from_user okAll (Sess.start db) mid uid).1 =
      some ("Successfully removed " ++ M.title ++ " from your list.") := by
    rw [remove_movie_okAll db mid uid M U hm hu]
  rw [h1c, h1r]
  set D1 := afterRemove db mid uid with hD1
  cases hm2 : findMovie D1 mid with
  | none =>
    have hrun2 : remove_movie_from_user okAll (Sess.start D1) mid uid =
        (none, Sess.start D1) := by
      unfold remove_movie_from_user
      simp [start_pending, hm2, rollback, Sess.start]
    rw [hrun2]
    refine ⟨rfl, by simp, fun _ => rfl, ?_⟩
    intro M2 hM2
    exact absurd hM2 (by simp)
  | some M2 =>
    have husers : D1.users = db.users := by
      rw [hD1]; exact afterRemove_users db mid uid
    have hu2 : findUser D1 uid = some U :=
      (findUser_users_eq db D1 uid husers).trans hu
    have hnotmem : ((uid, mid) : Nat × Nat) ∉ D1.assoc := by
      rw [hD1, afterRemove_assoc]
      intro hcon
      have := (List.mem_filter.mp hcon).2
      simp at this
    have hne : ¬ movieUsers D1 mid = [] := by
      intro hcon
      by_cases hemp : movieUsers
          { db with assoc := db.assoc.filter (fun q => decide (q ≠ (uid, mid))) }
          mid = []
      · have hDm : D1.movies = db.movies.filter (fun m => decide (m.id ≠ mid)) := by
          rw [hD1]
          simp only [afterRemove]
          rw [if_pos hemp]
        have hnone : findMovie D1 mid = none := by
          unfold findMovie
          rw [hDm]
          exact findMovie_filter_ne _ _
        rw [hm2] at hnone
        exact absurd hnone (by simp)
      · have hDe : D1 =
            { db with assoc := db.assoc.filter (fun q => decide (q ≠ (uid, mid))) } := by
          rw [hD1]
          simp only [afterRemove]
          rw [if_neg hemp]
        rw [hDe] at hcon
        exact hemp hcon
    have hfix : afterRemove D1 mid uid = D1 := by
      simp only [afterRemove]
      rw [filter_ne_of_not_mem _ _ hnotmem]
      split
      · rename_i h
        exact absurd h hne
      · rfl
    have h2c : (remove_movie_from_user okAll (Sess.start D1) mid uid).2.committed =
        afterRemove D1 mid uid := by
      rw [remove_movie_okAll D1 mid uid M2 U hm2 hu2]
    have h2r : (remove_movie_from_user okAll (Sess.start D1) mid uid).1 =
        some ("Successfully removed " ++ M2.title ++ " from your list.") := by
      rw [remove_movie_okAll D1 mid uid M2 U hm2 hu2]
    refine ⟨by rw [h2c, hfix], by simp, ?_, ?_⟩
    · intro hcon
      exact absurd hcon (by simp)
    · intro M3 hM3
      injection hM3 with h5
      rw [h2r, h5]

/-- Witness for the amended C5: a shared movie removed twice by the same
user — the second call is a no-op success and the state is unchanged. -/
theorem remove_twice_idempotent_state_w :
    (remove_movie_from_user okAll
        (Sess.start (remove_movie_from_user okAll
          (Sess.start ⟨[⟨1, "alice"⟩, ⟨2, "bob"⟩],
            [⟨1, "T", "D", PyVal.vstr "2010", PyVal.vstr "8.8", "P"⟩],
            [(1, 1), (2, 1)], 3, 2⟩) 1 1).2.committed) 1 1).2.committed =
      (remove_movie_from_user okAll
        (Sess.start ⟨[⟨1, "alice"⟩, ⟨2, "bob"⟩],
          [⟨1, "T", "D", PyVal.vstr "2010", PyVal.vstr "8.8", "P"⟩],
          [(1, 1), (2, 1)], 3, 2⟩) 1 1).2.committed ∧
    (remove_movie_from_user okAll
        (Sess.start ⟨[⟨1, "alice"⟩, ⟨2, "bob"⟩],
          [⟨1, "T", "D", PyVal.vstr "2010", PyVal.vstr "8.8", "P"⟩],
          [(1, 1), (2, 1)], 3, 2⟩) 1 1).1 ≠ none ∧
    (findMovie (remove_movie_from_user okAll
        (Sess.start ⟨[⟨1, "alice"⟩, ⟨2, "bob"⟩],
          [⟨1, "T", "D", PyVal.vstr "2010", PyVal.vstr "8.8", "P"⟩],
          [(1, 1), (2, 1)], 3, 2⟩) 1 1).2.committed 1 = none →
      (remove_movie_from_user okAll
        (Sess.start (remove_movie_from_user okAll
          (Sess.start ⟨[⟨1, "alice"⟩, ⟨2, "bob"⟩],
            [⟨1, "T", "D", PyVal.vstr "2010", PyVal.vstr "8.8", "P"⟩],
            [(1, 1), (2, 1)], 3, 2⟩) 1 1).2.committed) 1 1).1 = none) ∧
    (∀ M2, findMovie (remove_movie_from_user okAll
        (Sess.start ⟨[⟨1, "alice"⟩, ⟨2, "bob"⟩],
          [⟨1, "T", "D", PyVal.vstr "2010", PyVal.vstr "8.8", "P"⟩],
          [(1, 1), (2, 1)], 3, 2⟩) 1 1).2.committed 1 = some M2 →
      (remove_movie_from_user okAll
        (Sess.start (remove_movie_from_user okAll
          (Sess.start ⟨[⟨1, "alice"⟩, ⟨2, "bob"⟩],
            [⟨1, "T", "D", PyVal.vstr "2010", PyVal.vstr "8.8", "P"⟩],
            [(1, 1), (2, 1)], 3, 2⟩) 1 1).2.committed) 1 1).1 =
        some ("Successfully removed " ++ M2.title ++ " from your list.")) :=
  remove_twice_idempotent_state ⟨[⟨1, "alice"⟩, ⟨2, "bob"⟩],
    [⟨1, "T", "D", PyVal.vstr "2010", PyVal.vstr "8.8", "P"⟩],
    [(1, 1), (2, 1)], 3, 2⟩ 1 1
    ⟨1, "T", "D", PyVal.vstr "2010", PyVal.vstr "8.8", "P"⟩ ⟨1, "alice"⟩
    (by decide) (by decide)

/-- Counterexample to claim C7 as stated: `add_user` called with the empty
string succeeds — it returns a confirmation and commits a user row with an
empty name — instead of failing with a validation error before any write. -/
theorem add_user_empty_name_accepted_cex :
    (add_user okAll (Sess.start ⟨[], [], [], 1, 1⟩) (PyVal.vstr "")).1 =
      Except.ok (some (" added as a new user.")) ∧
    (add_user okAll (Sess.start ⟨[], [], [], 1, 1⟩) (PyVal.vstr "")).2.committed.users =
      [⟨1, ""⟩] :=
  ⟨rfl, rfl⟩

/-- Claim C7 (amended).  `add_user` validates only that the argument is a
string: a non-string raises `TypeError` before any write (store unchanged),
while any string — including the empty string — is accepted: a user row
with a freshly generated id, the given name and no movies is committed and
a confirmation carrying the name is returned. -/
theorem add_user_type_check_only (db : DB) (name : PyVal)
    (hfresh : idsFresh db) :
    ((∀ s, name ≠ PyVal.vstr s) →
      add_user okAll (Sess.start db) name =
        (Except.error "TypeError", Sess.start db)) ∧
    (∀ s, name = PyVal.vstr s →
      (add_user okAll (Sess.start db) name).1 =
        Except.ok (some (s ++ " added as a new user.")) ∧
      (add_user okAll (Sess.start db) name).2.committed =
        { db with users := db.users ++ [⟨db.nextUserId, s⟩],
                  nextUserId := db.nextUserId + 1 } ∧
      userMovies ({ db with users := db.users ++ [⟨db.nextUserId, s⟩],
                            nextUserId := db.nextUserId + 1 }) db.nextUserId =
        []) := by
  constructor
  · intro hall
    cases name with
    | vstr s => exact absurd rfl (hall s)
    | vint k => rfl
    | vfloat q => rfl
  · intro s hs
    subst hs
    refine ⟨?_, ?_, ?_⟩
    · unfold add_user
      simp [start_pending, commit_okAll, Sess.start]
    · unfold add_user
      simp [start_pending, commit_okAll, Sess.start]
    · unfold userMovies
      refine List.filter_eq_nil_iff.mpr ?_
      intro m hm
      simp only [decide_eq_true_eq]
      intro hcon
      exact absurd (hfresh.2.2 _ hcon).1 (lt_irrefl _)

/-- Witness for the amended C7: a non-string argument is rejected with the
store untouched, and the string "alice" is accepted with a fresh id and no
movies. -/
theorem add_user_type_check_only_w :
    ((∀ s, PyVal.vint 3 ≠ PyVal.vstr s) →
      add_user okAll (Sess.start ⟨[], [], [], 1, 1⟩) (PyVal.vint 3) =
        (Except.error "TypeError", Sess.start ⟨[], [], [], 1, 1⟩)) ∧
    (∀ s, PyVal.vint 3 = PyVal.vstr s →
      (add_user okAll (Sess.start ⟨[], [], [], 1, 1⟩) (PyVal.vint 3)).1 =
        Except.ok (some (s ++ " added as a new user.")) ∧
      (add_user okAll (Sess.start ⟨[], [], [], 1, 1⟩) (PyVal.vint 3)).2.committed =
        { (⟨[], [], [], 1, 1⟩ : DB) with users := [] ++ [⟨1, s⟩], nextUserId := 2 } ∧
      userMovies ({ (⟨[], [], [], 1, 1⟩ : DB) with users := [] ++ [⟨1, s⟩],
                                                    nextUserId := 2 }) 1 =
        []) :=
  add_user_type_check_only ⟨[], [], [], 1, 1⟩ (PyVal.vint 3) (by decide)

end MoviWeb
